import Mathlib

/-!
# Verification of the DMARC report pipeline core

A shallow embedding of the decision logic of the DMARC-Analyzer repository:
the recursive file extractor (`file_extractor.py`), the report classifier
(`report_classifier.py`), the aggregate-report analyzer (`rua_analyzer.py`)
and the forensic-report analyzer (`ruf_analyzer.py`), together with theorems
settling the specification's claims about them.

Python strings become `String`, Python `in` (substring test) becomes an
explicit infix scan, Python `int()` becomes a partial parse returning
`Option Int`, exceptions become `Except`, and the per-run mutable state of
the extractor/classifier becomes explicit state records.
-/

namespace DmarcAnalyzer

/-! ## String utilities mirroring the Python primitives -/

/-- Boolean test: `n` is a leading segment of `h` (character lists). -/
def listIsPre : List Char → List Char → Bool
  | [], _ => true
  | _ :: _, [] => false
  | a :: as, b :: bs => a == b && listIsPre as bs

/-- Boolean test: `n` occurs contiguously inside `h` (character lists). -/
def listIsSub (n : List Char) : List Char → Bool
  | [] => listIsPre n []
  | c :: t => listIsPre n (c :: t) || listIsSub n t

/-- Python's `needle in hay` substring test on strings. -/
def pyIn (needle hay : String) : Bool :=
  listIsSub needle.toList hay.toList

/-- Python's `str.lower()` restricted to ASCII case-folding (every input
the repository lower-cases is ASCII), computed characterwise so that it
reduces definitionally. -/
def strLower (s : String) : String :=
  (s.toList.map Char.toLower).asString

/-- Python's `str.replace(',', '')`: remove every comma. -/
def removeCommas (s : String) : String :=
  (s.toList.filter (fun c => c ≠ ',')).asString

/-- ASCII whitespace as stripped by Python's `int()` before parsing. -/
def isSpaceChar (c : Char) : Bool :=
  c == ' ' || c == '\t' || c == '\n' || c == '\r'

/-- Decimal digit value of a character, if it is one. -/
def digitVal? (c : Char) : Option Nat :=
  if '0' ≤ c ∧ c ≤ '9' then some (c.toNat - '0'.toNat) else none

/-- Value of a nonempty all-digit character list, else `none`. -/
def digitsVal? (l : List Char) : Option Nat :=
  match l with
  | [] => none
  | _ =>
    l.foldl (fun acc c =>
      match acc, digitVal? c with
      | some a, some d => some (10 * a + d)
      | _, _ => none) (some 0)

/-- Models Python `int()` applied to a string: optional surrounding ASCII
whitespace, an optional sign, then one or more decimal digits; any other
shape raises `ValueError`, modelled as `none`.  (Digit-group underscores,
which Python also accepts, do not occur in this repository's inputs.) -/
def pyInt? (s : String) : Option Int :=
  let t := (s.toList.dropWhile isSpaceChar).reverse.dropWhile isSpaceChar |>.reverse
  match t with
  | '-' :: rest => (digitsVal? rest).map (fun n => -(n : Int))
  | '+' :: rest => (digitsVal? rest).map (fun n => (n : Int))
  | rest => (digitsVal? rest).map (fun n => (n : Int))

/-! ## RUA analyzer: XML authentication-result checks

An `<auth_results>` element is modelled by the result texts of its `<dkim>`
descendants (in document order) and of its `<spf>` descendants.  Each entry
stores the text of that entry's `result` child as read by `_safe_find_xml`
with default `''`: `none` stands for a missing `result` child or one with
empty text, so `Option.getD "" ` reproduces `_safe_find_xml(dkim, 'result')`.
A missing `<auth_results>` element is `Option.none` at the outer level. -/

structure AuthResults where
  dkims : List (Option String)
  spfs : List (Option String)
deriving Repr, DecidableEq

/-- `RUAAnalyzer._check_dkim_xml`: scan every `<dkim>` entry, return true as
soon as one entry's result text equals `"pass"`; `False` when the
`auth_results` element is absent. -/
def checkDkimXml (ar : Option AuthResults) : Bool :=
  match ar with
  | none => false
  | some a => a.dkims.any (fun e => (e.getD "") == "pass")

/-- `RUAAnalyzer._check_spf_xml`: look only at the first `<spf>` entry found;
true iff its result text equals `"pass"`; `False` when there is no `<spf>`
entry or no `auth_results` element. -/
def checkSpfXml (ar : Option AuthResults) : Bool :=
  match ar with
  | none => false
  | some a =>
    match a.spfs with
    | [] => false
    | e :: _ => (e.getD "") == "pass"

/-! ## RUA analyzer: record extraction

XML elements reached through `_safe_find_xml(elem, path, default)` are
modelled as `Option String`: `none` stands for a missing element or one
whose text is empty/`None` (both fall back to the default), so
`Option.getD default` reproduces `_safe_find_xml` exactly. -/

/-- The normalized aggregate record (`_process_record_xml` /
`_parse_html_row` output dict). -/
structure AggregateRecord where
  reportId : String
  provider : String
  dateBegin : String
  dateEnd : String
  domain : String
  sourceIp : String
  count : Int
  disposition : String
  dkimResult : String
  spfResult : String
  dkimPass : Bool
  spfPass : Bool
  headerFrom : String
  envelopeFrom : String
  policyP : String
  policySP : String
deriving Repr, DecidableEq

/-- Values of the metadata dict built by `_extract_metadata_xml` when the
`report_metadata` element exists (each via `_safe_find_xml` with default
`''`, so an absent child is the empty string). -/
structure XmlMetadataVals where
  orgName : String
  email : String
  reportId : String
  dateBegin : String
  dateEnd : String
deriving Repr, DecidableEq

/-- Values of the policy dict built by `_extract_policy_xml` when
`policy_published` exists (defaults `''`, `'r'`, `'r'`, `'none'`, `'none'`,
`'100'` already applied by `_safe_find_xml`). -/
structure XmlPolicyVals where
  domain : String
  adkim : String
  aspf : String
  p : String
  sp : String
  pct : String
deriving Repr, DecidableEq

/-- `metadata.get(key, default)` where `_extract_metadata_xml` returned `{}`
for a missing `report_metadata` element (modelled by `none`). -/
def dictGetD {α : Type} (dict : Option α) (proj : α → String) (default : String) : String :=
  match dict with
  | none => default
  | some v => proj v

/-- `metadata.get(key)` with no default: Python `None` is `none`. -/
def dictGet? {α : Type} (dict : Option α) (proj : α → String) : Option String :=
  match dict with
  | none => none
  | some v => some (proj v)

/-- The `<policy_evaluated>` element inside a record's `<row>`. -/
structure PolicyEvaluated where
  disposition : Option String
  dkim : Option String
  spf : Option String
deriving Repr, DecidableEq

/-- A record's `<row>` element. -/
structure XmlRow where
  sourceIp : Option String
  countText : Option String
  policyEvaluated : Option PolicyEvaluated
deriving Repr, DecidableEq

/-- A record's `<identifiers>` element. -/
structure XmlIdentifiers where
  headerFrom : Option String
  envelopeFrom : Option String
deriving Repr, DecidableEq

/-- `RUAAnalyzer._format_timestamp`: `'Unknown'` for a falsy (absent or
empty) value; when the text parses as an integer, format it through
`datetime.fromtimestamp(...).strftime(...)` (taken as the parameter
`fmtTs`, a pure date-rendering function); otherwise the `except` branch
passes the text through unchanged. -/
def formatTimestamp (fmtTs : Int → String) (timestamp : Option String) : String :=
  match timestamp with
  | none => "Unknown"
  | some s =>
    if s = "" then "Unknown"
    else
      match pyInt? s with
      | some n => fmtTs n
      | none => s

/-- `RUAAnalyzer._process_record_xml`.  The `count` field is read as
`int(self._safe_find_xml(row, 'count', '0'))` with **no** exception
handler, so a non-numeric count text raises `ValueError` (an `Except.error`
here), which `add_report` catches at file level: the record is not
produced.  A missing `<row>` raises `AttributeError` at
`row.find('.//policy_evaluated')` (also after the count conversion). -/
def processRecordXml (fmtTs : Int → String) (row : Option XmlRow)
    (identifiers : Option XmlIdentifiers) (authResults : Option AuthResults)
    (metadata : Option XmlMetadataVals) (policy : Option XmlPolicyVals) :
    Except String AggregateRecord :=
  let sourceIp := (row.bind (·.sourceIp)).getD ""
  match pyInt? ((row.bind (·.countText)).getD "0") with
  | none => .error "ValueError"
  | some count =>
    match row with
    | none => .error "AttributeError"
    | some r =>
      let pe := r.policyEvaluated
      let disposition := (pe.bind (·.disposition)).getD "none"
      let dkimResult := (pe.bind (·.dkim)).getD "fail"
      let spfResult := (pe.bind (·.spf)).getD "fail"
      let headerFrom := (identifiers.bind (·.headerFrom)).getD ""
      let envelopeFrom := (identifiers.bind (·.envelopeFrom)).getD ""
      .ok {
        reportId := dictGetD metadata (·.reportId) "Unknown"
        provider := dictGetD metadata (·.orgName) "Unknown"
        dateBegin := formatTimestamp fmtTs (dictGet? metadata (·.dateBegin))
        dateEnd := formatTimestamp fmtTs (dictGet? metadata (·.dateEnd))
        domain := dictGetD policy (·.domain) "Unknown"
        sourceIp := sourceIp
        count := count
        disposition := disposition
        dkimResult := dkimResult
        spfResult := spfResult
        dkimPass := checkDkimXml authResults
        spfPass := checkSpfXml authResults
        headerFrom := headerFrom
        envelopeFrom := envelopeFrom
        policyP := dictGetD policy (·.p) "none"
        policySP := dictGetD policy (·.sp) "none" }

/-- Values of the metadata dict built by `_extract_metadata_html` (all keys
always present; initialized to `'Unknown'`/`''` and overwritten by the
regex probes when they match). -/
structure HtmlMetadataVals where
  orgName : String
  email : String
  reportId : String
  dateBegin : String
  dateEnd : String
deriving Repr, DecidableEq

/-- Values of the policy dict built by `_extract_policy_html`. -/
structure HtmlPolicyVals where
  domain : String
  p : String
deriving Repr, DecidableEq

/-- The initial record dict of `_parse_html_row` (lines 257-274), before any
header-driven cell mapping. -/
def initHtmlRecord (m : HtmlMetadataVals) (p : HtmlPolicyVals) : AggregateRecord := {
  reportId := m.reportId
  provider := m.orgName
  dateBegin := m.dateBegin
  dateEnd := m.dateEnd
  domain := p.domain
  sourceIp := "Unknown"
  count := 0
  disposition := "none"
  dkimResult := "unknown"
  spfResult := "unknown"
  dkimPass := false
  spfPass := false
  headerFrom := "Unknown"
  envelopeFrom := "Unknown"
  policyP := p.p
  policySP := "none" }

/-- One iteration of the header-mapping loop of `_parse_html_row`: one
`(header, value)` cell pair updates the record.  The `count`/`messages`
branch wraps `int(value.replace(',', ''))` in `try/except`, defaulting to
`0` on parse failure. -/
def parseHtmlRowStep (record : AggregateRecord) (header value : String) :
    AggregateRecord :=
  let h := strLower header
  if pyIn "ip" h || pyIn "source" h then { record with sourceIp := value }
  else if pyIn "count" h || pyIn "messages" h then
    { record with count := (pyInt? (removeCommas value)).getD 0 }
  else if pyIn "dkim" h then
    { record with dkimResult := strLower value, dkimPass := pyIn "pass" (strLower value) }
  else if pyIn "spf" h then
    { record with spfResult := strLower value, spfPass := pyIn "pass" (strLower value) }
  else if pyIn "disposition" h || pyIn "action" h then
    { record with disposition := strLower value }
  else if pyIn "from" h then
    if pyIn "header" h then { record with headerFrom := value }
    else if pyIn "envelope" h then { record with envelopeFrom := value }
    else { record with headerFrom := value }
  else record

/-- `RUAAnalyzer._parse_html_row`: build the initial record, then map each
header to its positionally matching cell value (`for i, header in
enumerate(headers)` with `break` once `i >= len(values)`, i.e. a zip). -/
def parseHtmlRow (headers values : List String) (m : HtmlMetadataVals)
    (p : HtmlPolicyVals) : AggregateRecord :=
  (headers.zip values).foldl (fun r hv => parseHtmlRowStep r hv.1 hv.2)
    (initHtmlRecord m p)

/-! ## RUF analyzer: forensic record extraction -/

/-- The normalized forensic record (output dict of `_process_xml_report` /
`_process_html_report` in `ruf_analyzer.py`). -/
structure ForensicRecord where
  reportId : String
  feedbackType : String
  userAgent : String
  version : String
  sourceIp : String
  authenticationResults : String
  deliveryResult : String
  authFailure : String
  reportedDomain : String
  arrivalDate : String
  fromHeader : String
  toHeader : String
  subjectHeader : String
  dateHeader : String
  messageId : String
  dmarcPolicy : String
  spfFailed : Bool
  dkimFailed : Bool
  processedDate : String
deriving Repr, DecidableEq

/-- The element texts an XML forensic report offers to `_safe_find(root,
'.//X', default)`: `none` is a missing element or empty text. -/
structure XmlForensicDoc where
  reportId : Option String
  feedbackType : Option String
  userAgent : Option String
  version : Option String
  sourceIp : Option String
  authResults : Option String
  deliveryResult : Option String
  authFailure : Option String
  reportedDomain : Option String
  arrivalDate : Option String
  fromElem : Option String
  toElem : Option String
  subjectElem : Option String
  dateElem : Option String
  messageId : Option String
  policyEvaluated : Option String
  originalMessage : Option String
deriving Repr, DecidableEq

/-- Results of the three `re.search` probes (`From:`, `To:`, `Subject:`)
that `_extract_headers_xml` runs over the `original_message` text block:
each is the stripped first capture group when the pattern matches. -/
structure OrigMsgMatches where
  fromLine : Option String
  toLine : Option String
  subjectLine : Option String
deriving Repr, DecidableEq

/-- `RUFAnalyzer._process_xml_report` record construction (the wall-clock
`Processed_Date` is the parameter `now`).  `SPF_Failed`/`DKIM_Failed` are
substring probes for `'spf'`/`'dkim'` in the lower-cased `Auth_Failure`
text. -/
def processXmlForensic (now : String) (doc : XmlForensicDoc)
    (om : OrigMsgMatches) : ForensicRecord :=
  let authFailure := doc.authFailure.getD "Unknown"
  let afLower := strLower authFailure
  let headersFrom :=
    match doc.originalMessage with
    | none => doc.fromElem.getD "Unknown"
    | some _ => (om.fromLine).getD (doc.fromElem.getD "Unknown")
  let headersTo :=
    match doc.originalMessage with
    | none => doc.toElem.getD "Unknown"
    | some _ => (om.toLine).getD (doc.toElem.getD "Unknown")
  let headersSubject :=
    match doc.originalMessage with
    | none => doc.subjectElem.getD "Unknown"
    | some _ => (om.subjectLine).getD (doc.subjectElem.getD "Unknown")
  { reportId := doc.reportId.getD "Unknown"
    feedbackType := doc.feedbackType.getD "auth-failure"
    userAgent := doc.userAgent.getD "Unknown"
    version := doc.version.getD "Unknown"
    sourceIp := doc.sourceIp.getD "Unknown"
    authenticationResults := doc.authResults.getD ""
    deliveryResult := doc.deliveryResult.getD "Unknown"
    authFailure := authFailure
    reportedDomain := doc.reportedDomain.getD "Unknown"
    arrivalDate := doc.arrivalDate.getD "Unknown"
    fromHeader := headersFrom
    toHeader := headersTo
    subjectHeader := headersSubject
    dateHeader := doc.dateElem.getD "Unknown"
    messageId := doc.messageId.getD "Unknown"
    dmarcPolicy := doc.policyEvaluated.getD "Unknown"
    spfFailed := pyIn "spf" afLower
    dkimFailed := pyIn "dkim" afLower
    processedDate := now }

/-- Results of the `re.search` probes `_process_html_report` and
`_extract_headers_html` run over the document's visible text: each field is
the (stripped/captured) group when the pattern matches, `none` otherwise. -/
structure HtmlForensicMatches where
  sourceIp : Option String
  authResults : Option String
  reportedDomain : Option String
  arrivalDate : Option String
  deliveryResult : Option String
  dmarcPolicy : Option String
  fromLine : Option String
  toLine : Option String
  subjectLine : Option String
  dateLine : Option String
  messageIdLine : Option String
deriving Repr, DecidableEq

/-- `RUFAnalyzer._process_html_report` record construction: `Report_ID` is
initialized to `html_path.stem` and never reassigned; `Auth_Failure` is
initialized to `'Unknown'`, then the SPF branch runs `'SPF' if not
report_data['Auth_Failure'] else report_data['Auth_Failure'] + ', SPF'`
(Python truthiness: only the empty string takes the first arm) and the DKIM
branch appends `', DKIM'` when the current value differs from `'Unknown'`,
else replaces it by `'DKIM'`. -/
def processHtmlForensic (now stem text : String) (m : HtmlForensicMatches) :
    ForensicRecord :=
  let tl := strLower text
  let failWord := pyIn "fail" tl || pyIn "failed" tl
  let spfFailed := pyIn "spf" tl && failWord
  let af0 := "Unknown"
  let af1 := if spfFailed then (if af0 = "" then "SPF" else af0 ++ ", SPF") else af0
  let dkimFailed := pyIn "dkim" tl && failWord
  let af2 :=
    if dkimFailed then (if af1 ≠ "Unknown" then af1 ++ ", DKIM" else "DKIM")
    else af1
  { reportId := stem
    feedbackType := "auth-failure"
    userAgent := "Unknown"
    version := "Unknown"
    sourceIp := m.sourceIp.getD "Unknown"
    authenticationResults := m.authResults.getD ""
    deliveryResult := m.deliveryResult.getD "Unknown"
    authFailure := af2
    reportedDomain := m.reportedDomain.getD "Unknown"
    arrivalDate := m.arrivalDate.getD "Unknown"
    fromHeader := m.fromLine.getD "Unknown"
    toHeader := m.toLine.getD "Unknown"
    subjectHeader := m.subjectLine.getD "Unknown"
    dateHeader := m.dateLine.getD "Unknown"
    messageId := m.messageIdLine.getD "Unknown"
    dmarcPolicy := (m.dmarcPolicy.map strLower).getD "Unknown"
    spfFailed := spfFailed
    dkimFailed := dkimFailed
    processedDate := now }

/-! ## Report classifier: heuristic HTML track -/

/-- The RUA keyword list of `ReportClassifier._classify_html`. -/
def ruaKeywords : List String :=
  ["aggregate report", "aggregate feedback", "report metadata",
   "policy published", "source ip", "message count", "policy evaluated",
   "dmarc aggregate"]

/-- The RUF keyword list of `ReportClassifier._classify_html`. -/
def rufKeywords : List String :=
  ["forensic report", "failure report", "auth failure",
   "authentication failure", "original message", "message headers",
   "delivery result", "authentication-results", "forensic feedback",
   "dmarc forensic"]

/-- `sum(1 for keyword in kws if keyword in text)`. -/
def countKeywordMatches (text : String) (kws : List String) : Nat :=
  (kws.filter (fun k => pyIn k text)).length

/-- The boosted RUA score: keyword matches plus `+2` when any table has
more than 5 `tr` rows (`tableRowCounts` lists each table's row count). -/
def ruaScoreOf (textLower : String) (tableRowCounts : List Nat) : Nat :=
  countKeywordMatches textLower ruaKeywords +
    (if tableRowCounts.any (fun n => decide (n > 5)) then 2 else 0)

/-- The boosted RUF score: keyword matches plus `+2` when the lower-cased
text contains all of `"received:"`, `"from:"`, `"subject:"`. -/
def rufScoreOf (textLower : String) : Nat :=
  countKeywordMatches textLower rufKeywords +
    (if pyIn "received:" textLower && pyIn "from:" textLower &&
        pyIn "subject:" textLower then 2 else 0)

/-- `ReportClassifier._classify_html` decision logic: `text` is the
document's visible text (`soup.get_text()`), `tableRowCounts` the per-table
`tr` counts, `filename` the file's name (`html_path.name`).  Returns the
same strings `'rua'`/`'ruf'`/`'unclassified'` as the code. -/
def classifyHtml (text : String) (tableRowCounts : List Nat)
    (filename : String) : String :=
  let tl := strLower text
  let ruaScore := ruaScoreOf tl tableRowCounts
  let rufScore := rufScoreOf tl
  if ruaScore > rufScore && ruaScore > 0 then "rua"
  else if rufScore > ruaScore && rufScore > 0 then "ruf"
  else
    let fl := strLower filename
    if pyIn "aggregate" fl || pyIn "rua" fl then "rua"
    else if pyIn "forensic" fl || pyIn "ruf" fl || pyIn "failure" fl then "ruf"
    else "unclassified"

/-! ## File extractor: extension dispatch and content sniffing -/

/-- The first-level routes of `FileExtractor._process_file`. -/
inductive Route where
  | zipExtract
  | gzExtract
  | tarExtract
  | emlExtract
  | copyHtml
  | copyXml
  | sniff
deriving Repr, DecidableEq

/-- The extension dispatch of `FileExtractor._process_file` (lines 78-95):
`file_ext = file_path.suffix.lower()`, then a fixed `if`/`elif` chain whose
final `else` falls through to `_detect_and_extract`. -/
def dispatchExt (suffix : String) : Route :=
  let e := strLower suffix
  if e = ".zip" then .zipExtract
  else if e = ".gz" then .gzExtract
  else if e = ".tar" ∨ e = ".tgz" then .tarExtract
  else if e = ".eml" then .emlExtract
  else if e = ".html" ∨ e = ".htm" then .copyHtml
  else if e = ".xml" then .copyXml
  else .sniff

/-- Outcomes of `FileExtractor._detect_and_extract`. -/
inductive SniffOutcome where
  | copiedHtml
  | copiedXml
  | extractedZip
  | extractedTar
  | dropped
deriving Repr, DecidableEq

/-- `FileExtractor._detect_and_extract`: open the file as text with
`errors='ignore'` and read a 1000-character prefix (`readOk` is whether
this raised; with `errors='ignore'` a readable file never raises a decode
error).  On a successful read: the case-sensitive marker `'<!DOCTYPE html'`
or case-insensitive `'<html'` routes to `_copy_html`; else `'<?xml'` routes
to `_copy_xml`; else the function simply returns — the file is dropped.
Only when the text read itself raised does the `except` branch try
`zipfile.is_zipfile` (`isZip`) and then `tarfile.is_tarfile` (`isTar`);
failures there are swallowed (`except: pass`). -/
def detectAndExtract (readOk : Bool) (textPrefix : String)
    (isZip isTar : Bool) : SniffOutcome :=
  if readOk then
    if pyIn "<!DOCTYPE html" textPrefix || pyIn "<html" (strLower textPrefix) then
      .copiedHtml
    else if pyIn "<?xml" textPrefix then .copiedXml
    else .dropped
  else
    if isZip then .extractedZip
    else if isTar then .extractedTar
    else .dropped

/-! ## File extractor: duplicate-processing guard -/

/-- The per-run state touched by the guard at the top of
`FileExtractor._process_file`: the `processed_files` set of path strings
and the accumulated extraction output. -/
structure ExtractorState where
  processedFiles : List String
  extractedDocs : List String
deriving Repr, DecidableEq

/-- The guard of `FileExtractor._process_file` (lines 72-76): skip when
`str(file_path)` is already in `processed_files`, else record it and run
the dispatch, modelled by `contents` giving the documents the file's
processing yields (the same file yields the same documents). -/
def processFileGuard (contents : String → List String)
    (st : ExtractorState) (path : String) : ExtractorState :=
  if path ∈ st.processedFiles then st
  else { processedFiles := st.processedFiles ++ [path],
         extractedDocs := st.extractedDocs ++ contents path }

/-! ## Collision-safe naming (`_copy_html`/`_copy_xml`/`_move_file`) -/

/-- The `k`-th suffixed candidate name `f"{stem}_{k}{ext}"`. -/
def candName (stem ext : String) (k : Nat) : String :=
  stem ++ "_" ++ Nat.repr k ++ ext

/-- The `while output_path.exists()` loop: starting at counter `c`, return
the first candidate not among `existing`; `fuel` bounds the search (the
Python loop is unbounded, and `freshName` always passes enough fuel for a
free candidate to exist). -/
def freshNameAux (existing : List String) (stem ext : String) :
    Nat → Nat → String
  | 0, c => candName stem ext c
  | fuel + 1, c =>
    if candName stem ext c ∈ existing then freshNameAux existing stem ext fuel (c + 1)
    else candName stem ext c

/-- The collision-safe name choice shared by `_copy_html`, `_copy_xml` and
`_move_file`: try `stem + ext` first, then `stem_1 + ext`, `stem_2 + ext`,
... until a name not present in `existing` (the destination directory's
current file names) is found. -/
def freshName (existing : List String) (stem ext : String) : String :=
  if stem ++ ext ∈ existing then
    freshNameAux existing stem ext (existing.length + 1) 1
  else stem ++ ext

/-! ## Report classifier: `_move_file` side effects -/

/-- A classification verdict string as produced by `_classify_xml` /
`_classify_html`. -/
inductive ReportKind where
  | rua
  | ruf
  | unclassified
deriving Repr, DecidableEq

/-- The directory/list state touched by `ReportClassifier._move_file`:
the extracted-documents directory the classifier reads from, the two kind
directories, and the three bookkeeping lists. -/
structure ClassifierState where
  srcDir : List String
  ruaDir : List String
  rufDir : List String
  ruaFiles : List String
  rufFiles : List String
  unclassifiedFiles : List String
deriving Repr, DecidableEq

/-- `ReportClassifier._move_file`: an unclassified document is only
recorded (the file stays where it is); a `rua`/`ruf` document gets a
collision-safe name in the kind directory and is **copied** there with
`shutil.copy2` — the source directory is not modified, so the original
file remains in place. -/
def moveFile (st : ClassifierState) (stem ext : String) (kind : ReportKind) :
    ClassifierState :=
  match kind with
  | .unclassified =>
    { st with unclassifiedFiles := st.unclassifiedFiles ++ [stem ++ ext] }
  | .rua =>
    let dest := freshName st.ruaDir stem ext
    { st with ruaDir := st.ruaDir ++ [dest], ruaFiles := st.ruaFiles ++ [dest] }
  | .ruf =>
    let dest := freshName st.rufDir stem ext
    { st with rufDir := st.rufDir ++ [dest], rufFiles := st.rufFiles ++ [dest] }

/-! ## Auxiliary: decimal digits, for reasoning about the numeric suffix -/

/-- Decimal value of a digit character. -/
def decDigit (c : Char) : Nat :=
  c.toNat - '0'.toNat

/-- Fold a digit list onto an accumulator in base 10. -/
def listValAcc (a : Nat) (l : List Char) : Nat :=
  l.foldl (fun x c => 10 * x + decDigit c) a

/-- Append the decimal digits of `n` behind the accumulated value `a`. -/
def pushDigits (a n : Nat) : Nat :=
  if n < 10 then 10 * a + n
  else 10 * pushDigits a (n / 10) + n % 10
decreasing_by exact Nat.div_lt_self (by omega) (by omega)

/-- Path-resolution on the two paths of the symlink-alias scenario:
`reports/link.html` is a symlink to `reports/a.html`, so both resolve to
the same canonical file. -/
def aliasCanon (p : String) : String :=
  if p = "reports/link.html" then "reports/a.html" else p

/-- An `HtmlForensicMatches` record where no regex probe matched. -/
def noHtmlMatches : HtmlForensicMatches :=
  ⟨none, none, none, none, none, none, none, none, none, none, none⟩

/-- An XML forensic document none of whose looked-up elements exist. -/
def emptyXmlForensicDoc : XmlForensicDoc :=
  ⟨none, none, none, none, none, none, none, none, none, none, none, none,
   none, none, none, none, none⟩

/-- Original-message header probes with no match. -/
def noOrigMsgMatches : OrigMsgMatches :=
  ⟨none, none, none⟩

/-! ## Lemmas: decimal representation round trip -/

lemma decDigit_digitChar (m : Nat) (hm : m < 10) :
    decDigit (Nat.digitChar m) = m := by
  interval_cases m <;> rfl

lemma listValAcc_cons (a : Nat) (c : Char) (l : List Char) :
    listValAcc a (c :: l) = listValAcc (10 * a + decDigit c) l := rfl

lemma pushDigits_small (a n : Nat) (h : n < 10) :
    pushDigits a n = 10 * a + n := by
  rw [pushDigits, if_pos h]

lemma pushDigits_large (a n : Nat) (h : ¬ n < 10) :
    pushDigits a n = 10 * pushDigits a (n / 10) + n % 10 := by
  rw [pushDigits, if_neg h]

lemma listValAcc_toDigitsCore :
    ∀ (fuel n : Nat) (ds : List Char) (a : Nat), n < fuel →
      listValAcc a (Nat.toDigitsCore 10 fuel n ds) =
        listValAcc (pushDigits a n) ds := by
  intro fuel
  induction fuel with
  | zero => intro n ds a h; omega
  | succ f ih =>
    intro n ds a hn
    show listValAcc a
        (if n / 10 = 0 then Nat.digitChar (n % 10) :: ds
         else Nat.toDigitsCore 10 f (n / 10) (Nat.digitChar (n % 10) :: ds)) = _
    by_cases h0 : n / 10 = 0
    · rw [if_pos h0, listValAcc_cons,
        decDigit_digitChar (n % 10) (Nat.mod_lt n (by omega)),
        pushDigits_small a n (by omega)]
      congr 1
      omega
    · rw [if_neg h0, ih (n / 10) _ a (by omega), listValAcc_cons,
        decDigit_digitChar (n % 10) (Nat.mod_lt n (by omega)),
        pushDigits_large a n (by omega)]

lemma pushDigits_zero (n : Nat) : pushDigits 0 n = n := by
  induction n using Nat.strong_induction_on with
  | _ n ih =>
    by_cases h : n < 10
    · rw [pushDigits_small 0 n h]; omega
    · rw [pushDigits_large 0 n h, ih (n / 10) (by omega)]
      omega

lemma listValAcc_toDigits (n : Nat) :
    listValAcc 0 (Nat.toDigits 10 n) = n := by
  unfold Nat.toDigits
  rw [listValAcc_toDigitsCore (n + 1) n [] 0 (Nat.lt_succ_self n)]
  exact pushDigits_zero n

lemma natRepr_injective : Function.Injective Nat.repr := by
  intro m n h
  have hd : Nat.toDigits 10 m = Nat.toDigits 10 n := by
    have h2 := congrArg String.data h
    simpa [Nat.repr, List.asString] using h2
  have h3 := congrArg (listValAcc 0) hd
  rwa [listValAcc_toDigits, listValAcc_toDigits] at h3

/-! ## Lemmas: collision-safe naming -/

lemma strData_append (s t : String) : (s ++ t).data = s.data ++ t.data := rfl

lemma candName_injective (stem ext : String) :
    Function.Injective (candName stem ext) := by
  intro j k h
  unfold candName at h
  have hd := congrArg String.data h
  simp only [strData_append] at hd
  have h2 := List.append_cancel_right hd
  have h3 := List.append_cancel_left h2
  exact natRepr_injective (congrArg String.mk h3)

lemma candName_ne_plain (stem ext : String) (k : Nat) :
    candName stem ext k ≠ stem ++ ext := by
  intro h
  have hlen := congrArg String.length h
  have hu : ("_" : String).length = 1 := rfl
  simp only [candName, String.length_append, hu] at hlen
  omega

lemma exists_fresh_cand (existing : List String) (stem ext : String) (c : Nat) :
    ∃ i, i ≤ existing.length ∧ candName stem ext (c + i) ∉ existing := by
  by_contra hcon
  push_neg at hcon
  have hinj : Function.Injective (fun i : Nat => candName stem ext (c + i)) := by
    intro a b hab
    have := candName_injective stem ext hab
    omega
  have hsub : (Finset.range (existing.length + 1)).image
      (fun i => candName stem ext (c + i)) ⊆ existing.toFinset := by
    intro x hx
    rw [Finset.mem_image] at hx
    obtain ⟨i, hi, rfl⟩ := hx
    rw [Finset.mem_range] at hi
    rw [List.mem_toFinset]
    exact hcon i (by omega)
  have hcard : ((Finset.range (existing.length + 1)).image
      (fun i => candName stem ext (c + i))).card = existing.length + 1 := by
    rw [Finset.card_image_of_injective _ hinj, Finset.card_range]
  have hle := Finset.card_le_card hsub
  have hfin := existing.toFinset_card_le
  omega

lemma freshNameAux_spec (existing : List String) (stem ext : String) :
    ∀ (fuel c : Nat), (∃ i, i < fuel ∧ candName stem ext (c + i) ∉ existing) →
      ∃ i, i < fuel ∧
        freshNameAux existing stem ext fuel c = candName stem ext (c + i) ∧
        candName stem ext (c + i) ∉ existing ∧
        ∀ j, j < i → candName stem ext (c + j) ∈ existing := by
  intro fuel
  induction fuel with
  | zero => intro c h; obtain ⟨i, hi, _⟩ := h; omega
  | succ f ih =>
    intro c h
    show (∃ i, i < f + 1 ∧
      (if candName stem ext c ∈ existing then freshNameAux existing stem ext f (c + 1)
       else candName stem ext c) = candName stem ext (c + i) ∧ _ ∧ _)
    by_cases hc : candName stem ext c ∈ existing
    · rw [if_pos hc]
      have h' : ∃ i, i < f ∧ candName stem ext (c + 1 + i) ∉ existing := by
        obtain ⟨i, hi, hni⟩ := h
        have hi0 : i ≠ 0 := by
          intro h0; subst h0; simp at hni; exact hni hc
        exact ⟨i - 1, by omega, by rw [show c + 1 + (i - 1) = c + i by omega]; exact hni⟩
      obtain ⟨i', hi', heq, hfree, hall⟩ := ih (c + 1) h'
      refine ⟨i' + 1, by omega, ?_, ?_, ?_⟩
      · rw [heq]; congr 1; omega
      · rw [show c + (i' + 1) = c + 1 + i' by omega]; exact hfree
      · intro j hj
        cases j with
        | zero => simpa using hc
        | succ j' =>
          rw [show c + (j' + 1) = c + 1 + j' by omega]
          exact hall j' (by omega)
    · rw [if_neg hc]
      exact ⟨0, by omega, by simp, by simpa using hc, fun j hj => absurd hj (by omega)⟩

lemma freshName_not_mem (existing : List String) (stem ext : String) :
    freshName existing stem ext ∉ existing := by
  unfold freshName
  by_cases hb : stem ++ ext ∈ existing
  · rw [if_pos hb]
    obtain ⟨i, hile, hfree⟩ := exists_fresh_cand existing stem ext 1
    obtain ⟨i', _, heq, hfree', _⟩ :=
      freshNameAux_spec existing stem ext (existing.length + 1) 1 ⟨i, by omega, hfree⟩
    rw [heq]; exact hfree'
  · rw [if_neg hb]; exact hb

/-! ## Lemmas: classifier decision normal form -/

lemma classifyHtml_cases (text : String) (tables : List Nat) (fname : String) :
    classifyHtml text tables fname =
      (if ruaScoreOf (strLower text) tables > rufScoreOf (strLower text) then "rua"
       else if rufScoreOf (strLower text) > ruaScoreOf (strLower text) tables then "ruf"
       else if (pyIn "aggregate" (strLower fname) || pyIn "rua" (strLower fname)) = true
         then "rua"
       else if (pyIn "forensic" (strLower fname) || pyIn "ruf" (strLower fname) ||
           pyIn "failure" (strLower fname)) = true then "ruf"
       else "unclassified") := by
  unfold classifyHtml
  rcases Nat.lt_trichotomy (ruaScoreOf (strLower text) tables)
      (rufScoreOf (strLower text)) with h | h | h
  · have hb1 : (decide (ruaScoreOf (strLower text) tables > rufScoreOf (strLower text)) &&
        decide (ruaScoreOf (strLower text) tables > 0)) = false := by
      simp only [Bool.and_eq_false_iff, decide_eq_false_iff_not]
      left; omega
    have hb2 : (decide (rufScoreOf (strLower text) > ruaScoreOf (strLower text) tables) &&
        decide (rufScoreOf (strLower text) > 0)) = true := by
      simp only [Bool.and_eq_true, decide_eq_true_eq]
      omega
    simp only [hb1, hb2, if_true, if_false, Bool.false_eq_true, if_neg h.asymm,
      if_pos h]
  · have hb1 : (decide (ruaScoreOf (strLower text) tables > rufScoreOf (strLower text)) &&
        decide (ruaScoreOf (strLower text) tables > 0)) = false := by
      simp only [Bool.and_eq_false_iff, decide_eq_false_iff_not]
      left; omega
    have hb2 : (decide (rufScoreOf (strLower text) > ruaScoreOf (strLower text) tables) &&
        decide (rufScoreOf (strLower text) > 0)) = false := by
      simp only [Bool.and_eq_false_iff, decide_eq_false_iff_not]
      left; omega
    simp only [hb1, hb2, Bool.false_eq_true, if_false, if_neg (by omega : ¬ ruaScoreOf
      (strLower text) tables > rufScoreOf (strLower text)), if_neg (by omega :
      ¬ rufScoreOf (strLower text) > ruaScoreOf (strLower text) tables)]
  · have hb1 : (decide (ruaScoreOf (strLower text) tables > rufScoreOf (strLower text)) &&
        decide (ruaScoreOf (strLower text) tables > 0)) = true := by
      simp only [Bool.and_eq_true, decide_eq_true_eq]
      omega
    simp only [hb1, if_true, if_pos h]

/-! ## Claim theorems -/

/-- C6: the heuristic HTML classifier returns `'rua'` iff the boosted
ruaScore strictly exceeds the boosted rufScore and is nonzero (over `Nat`,
`rua > ruf` already forces `rua > 0`) or, on a tie (including 0-0), the
filename contains `"aggregate"` or `"rua"`; `'ruf'` symmetrically with the
filename fallback `"forensic"`/`"ruf"`/`"failure"` tried only after the
aggregate keywords; otherwise `'unclassified'` — in particular a document
with no recognizable keywords named `report_42.html` is unclassified. -/
theorem classify_html_decision :
    (∀ (text : String) (tables : List Nat) (fname : String),
      ((classifyHtml text tables fname = "rua") ↔
        (ruaScoreOf (strLower text) tables > rufScoreOf (strLower text) ∧
            ruaScoreOf (strLower text) tables > 0) ∨
        (ruaScoreOf (strLower text) tables = rufScoreOf (strLower text) ∧
          (pyIn "aggregate" (strLower fname) = true ∨
            pyIn "rua" (strLower fname) = true))) ∧
      ((classifyHtml text tables fname = "ruf") ↔
        (rufScoreOf (strLower text) > ruaScoreOf (strLower text) tables ∧
            rufScoreOf (strLower text) > 0) ∨
        (ruaScoreOf (strLower text) tables = rufScoreOf (strLower text) ∧
          ¬(pyIn "aggregate" (strLower fname) = true ∨
            pyIn "rua" (strLower fname) = true) ∧
          (pyIn "forensic" (strLower fname) = true ∨
            pyIn "ruf" (strLower fname) = true ∨
            pyIn "failure" (strLower fname) = true))) ∧
      ((classifyHtml text tables fname = "unclassified") ↔
        (ruaScoreOf (strLower text) tables = rufScoreOf (strLower text) ∧
          ¬(pyIn "aggregate" (strLower fname) = true ∨
            pyIn "rua" (strLower fname) = true) ∧
          ¬(pyIn "forensic" (strLower fname) = true ∨
            pyIn "ruf" (strLower fname) = true ∨
            pyIn "failure" (strLower fname) = true)))) ∧
    classifyHtml "This page mentions nothing relevant." [] "report_42.html" =
      "unclassified" := by
  constructor
  · intro text tables fname
    rw [classifyHtml_cases text tables fname]
    rcases Nat.lt_trichotomy (ruaScoreOf (strLower text) tables)
        (rufScoreOf (strLower text)) with h | h | h
    · rw [if_neg h.asymm, if_pos h]
      refine ⟨?_, ?_, ?_⟩
      · refine iff_of_false (by decide) ?_
        rintro (⟨h', _⟩ | ⟨h', _⟩) <;> omega
      · exact iff_of_true rfl (Or.inl ⟨h, by omega⟩)
      · refine iff_of_false (by decide) ?_
        rintro ⟨h', _⟩; omega
    · rw [if_neg (by omega), if_neg (by omega)]
      by_cases hA : (pyIn "aggregate" (strLower fname) ||
          pyIn "rua" (strLower fname)) = true
      · rw [if_pos hA]
        rw [Bool.or_eq_true] at hA
        refine ⟨?_, ?_, ?_⟩
        · exact iff_of_true rfl (Or.inr ⟨h, hA⟩)
        · refine iff_of_false (by decide) ?_
          rintro (⟨h', _⟩ | ⟨_, hnA, _⟩)
          · omega
          · exact hnA hA
        · refine iff_of_false (by decide) ?_
          rintro ⟨_, hnA, _⟩
          exact hnA hA
      · rw [if_neg hA]
        rw [Bool.or_eq_true] at hA
        by_cases hF : (pyIn "forensic" (strLower fname) ||
            pyIn "ruf" (strLower fname) || pyIn "failure" (strLower fname)) = true
        · rw [if_pos hF]
          rw [Bool.or_eq_true, Bool.or_eq_true] at hF
          refine ⟨?_, ?_, ?_⟩
          · refine iff_of_false (by decide) ?_
            rintro (⟨h', _⟩ | ⟨_, hA'⟩)
            · omega
            · exact hA hA'
          · exact iff_of_true rfl (Or.inr ⟨h, hA, by tauto⟩)
          · refine iff_of_false (by decide) ?_
            rintro ⟨_, _, hnF⟩
            exact hnF (by tauto)
        · rw [if_neg hF]
          rw [Bool.or_eq_true, Bool.or_eq_true] at hF
          refine ⟨?_, ?_, ?_⟩
          · refine iff_of_false (by decide) ?_
            rintro (⟨h', _⟩ | ⟨_, hA'⟩)
            · omega
            · exact hA hA'
          · refine iff_of_false (by decide) ?_
            rintro (⟨h', _⟩ | ⟨_, _, hF'⟩)
            · omega
            · exact hF (by tauto)
          · exact iff_of_true rfl ⟨h, hA, fun hF' => hF (by tauto)⟩
    · rw [if_pos h]
      refine ⟨?_, ?_, ?_⟩
      · exact iff_of_true rfl (Or.inl ⟨h, by omega⟩)
      · refine iff_of_false (by decide) ?_
        rintro (⟨h', _⟩ | ⟨h', _⟩) <;> omega
      · refine iff_of_false (by decide) ?_
        rintro ⟨h', _⟩; omega
  · rfl

/-- C1: DKIM_Pass is true iff any `<dkim>` entry of the record's
`auth_results` has result text `"pass"` (any-match), while SPF_Pass looks
only at the first `<spf>` entry (its value is unchanged by whatever follows
the first entry); concretely, DKIM results `["fail", "pass", "fail"]` give
`true` and SPF results `["pass", "fail"]` give `true`. -/
theorem dkim_any_match_spf_first_match :
    (∀ a : AuthResults,
      (checkDkimXml (some a) = true ↔ ∃ e ∈ a.dkims, e.getD "" = "pass") ∧
      (checkSpfXml (some a) = true ↔
        ∃ e rest, a.spfs = e :: rest ∧ e.getD "" = "pass")) ∧
    (∀ (dk : List (Option String)) (e : Option String)
       (r r' : List (Option String)),
      checkSpfXml (some ⟨dk, e :: r⟩) = checkSpfXml (some ⟨dk, e :: r'⟩)) ∧
    checkDkimXml (some ⟨[some "fail", some "pass", some "fail"], []⟩) = true ∧
    checkSpfXml (some ⟨[], [some "pass", some "fail"]⟩) = true := by
  refine ⟨?_, ?_, ?_, ?_⟩
  · intro a
    constructor
    · simp [checkDkimXml, List.any_eq_true, beq_iff_eq]
    · show (match a.spfs with
        | [] => false
        | e :: _ => (e.getD "" == "pass")) = true ↔ _
      cases h : a.spfs with
      | nil => simp [h]
      | cons e rest => simp [h, beq_iff_eq]
  · intro dk e r r'; rfl
  · rfl
  · rfl

/-- C2: evaluation of `_process_html_report` at the failing input of the
claim's scenario: a forensic HTML document whose text is
`"SPF permerror; DKIM fail"` does set `SPF_Failed` and `DKIM_Failed`, but
the composed `Auth_Failure` string is `"Unknown, SPF, DKIM"`, not the
`"SPF, DKIM"` the claim states — `Auth_Failure` starts as the truthy string
`'Unknown'`, so the SPF branch's `'SPF' if not report_data['Auth_Failure']`
arm is dead and the `'Unknown'` prefix is never dropped. -/
theorem auth_failure_compose_bug :
    (processHtmlForensic "2024-01-01 00:00:00" "fr1" "SPF permerror; DKIM fail"
        noHtmlMatches).spfFailed = true ∧
    (processHtmlForensic "2024-01-01 00:00:00" "fr1" "SPF permerror; DKIM fail"
        noHtmlMatches).dkimFailed = true ∧
    (processHtmlForensic "2024-01-01 00:00:00" "fr1" "SPF permerror; DKIM fail"
        noHtmlMatches).authFailure = "Unknown, SPF, DKIM" ∧
    (processHtmlForensic "2024-01-01 00:00:00" "fr1" "SPF permerror; DKIM fail"
        noHtmlMatches).authFailure ≠ "SPF, DKIM" := by
  refine ⟨rfl, rfl, rfl, by decide⟩

/-- C3 counterexample: an XML record whose `<count>` text is `"abc"` does
not yield a record with Count = 0 — `int('abc')` raises `ValueError`, so
`_process_record_xml` fails and no record is produced. -/
theorem xml_count_nonnumeric_counterexample :
    processRecordXml (fun _ => "") (some ⟨some "10.0.0.1", some "abc", none⟩)
      none none none none = Except.error "ValueError" := rfl

/-- C3 amended: only the HTML track recovers from a non-numeric count with
Count = 0 (and changes nothing else in the record); in the XML track a
non-numeric `<count>` text raises `ValueError` and the record is not
produced. -/
theorem count_parse_failure_amended :
    (∀ (fmtTs : Int → String) (row : Option XmlRow)
       (idf : Option XmlIdentifiers) (ar : Option AuthResults)
       (md : Option XmlMetadataVals) (pol : Option XmlPolicyVals),
      pyInt? ((row.bind XmlRow.countText).getD "0") = none →
      processRecordXml fmtTs row idf ar md pol = Except.error "ValueError") ∧
    (∀ (rec : AggregateRecord) (h v : String),
      (pyIn "ip" (strLower h) || pyIn "source" (strLower h)) = false →
      (pyIn "count" (strLower h) || pyIn "messages" (strLower h)) = true →
      pyInt? (removeCommas v) = none →
      parseHtmlRowStep rec h v = { rec with count := 0 }) := by
  constructor
  · intro fmtTs row idf ar md pol h
    unfold processRecordXml
    rw [h]
  · intro rec h v h1 h2 h3
    simp [parseHtmlRowStep, h1, h2, h3]

theorem count_parse_failure_amended_witness :
    processRecordXml (fun _ => "") (some ⟨none, some "abc", none⟩)
      none none none none = Except.error "ValueError" ∧
    parseHtmlRowStep
        (initHtmlRecord ⟨"Unknown", "Unknown", "Unknown", "", ""⟩
          ⟨"Unknown", "none"⟩) "count" "12x" =
      { initHtmlRecord ⟨"Unknown", "Unknown", "Unknown", "", ""⟩
          ⟨"Unknown", "none"⟩ with count := 0 } := by
  refine ⟨count_parse_failure_amended.1 (fun _ => "") _ none none none none rfl,
    count_parse_failure_amended.2 _ "count" "12x" rfl rfl rfl⟩

/-- C4 counterexample: the extension dispatch routes a `.msg` artifact to
content sniffing, not to a mail-container parse as it does `.eml` — there
is no `.msg` branch in `_process_file`. -/
theorem msg_extension_counterexample :
    dispatchExt ".msg" = Route.sniff ∧ Route.sniff ≠ Route.emlExtract :=
  ⟨rfl, by decide⟩

/-- C4 amended: the extension table of `_process_file` has no `.msg` entry;
a `.msg` artifact (any capitalization) falls through to content sniffing,
while `.eml` is parsed as a mail message and recursed over. -/
theorem msg_extension_amended :
    dispatchExt ".msg" = Route.sniff ∧ dispatchExt ".MSG" = Route.sniff ∧
    dispatchExt ".eml" = Route.emlExtract ∧
    dispatchExt ".zip" = Route.zipExtract := ⟨rfl, rfl, rfl, rfl⟩

/-- C5 counterexample: an artifact whose text prefix reads fine under
`errors='ignore'` but shows no HTML/XML marker is dropped by
`_detect_and_extract` even when it is a valid zip — the zip/tar fallback
sits in the `except` branch that only runs when the text read itself
raises. -/
theorem sniff_no_marker_counterexample :
    detectAndExtract true "PK\x03\x04rest-of-zip-bytes" true false =
      SniffOutcome.dropped ∧
    SniffOutcome.dropped ≠ SniffOutcome.extractedZip := ⟨rfl, by decide⟩

/-- C5 amended: when the text read succeeds and neither marker matches, the
artifact is dropped without any zip/tar attempt; the zip-then-tar fallback
runs only when reading the artifact as text raises, and its own failures
are swallowed (dropped, no error escapes). -/
theorem sniff_fallback_amended :
    (∀ (p : String) (z t : Bool),
      pyIn "<!DOCTYPE html" p = false → pyIn "<html" (strLower p) = false →
      pyIn "<?xml" p = false →
      detectAndExtract true p z t = SniffOutcome.dropped) ∧
    (∀ (p : String) (z t : Bool),
      detectAndExtract false p z t =
        if z then SniffOutcome.extractedZip
        else if t then SniffOutcome.extractedTar
        else SniffOutcome.dropped) := by
  constructor
  · intro p z t h1 h2 h3
    simp [detectAndExtract, h1, h2, h3]
  · intro p z t; rfl

theorem sniff_fallback_amended_witness :
    detectAndExtract true "PK" true true = SniffOutcome.dropped ∧
    detectAndExtract false "PK" true false = SniffOutcome.extractedZip := by
  constructor
  · exact sniff_fallback_amended.1 "PK" true true rfl rfl rfl
  · have h := sniff_fallback_amended.2 "PK" true false
    simpa using h

/-- C7 counterexample: the duplicate-processing set is keyed by the path
string as given (`str(file_path)`), not by a canonical absolute path: two
distinct path strings that resolve to the same canonical file (a symlink
alias) are both processed, and the file's contents are yielded twice in one
run. -/
theorem dedup_alias_counterexample :
    aliasCanon "reports/link.html" = aliasCanon "reports/a.html" ∧
    ("reports/link.html" : String) ≠ "reports/a.html" ∧
    (processFileGuard (fun p => [aliasCanon p])
        (processFileGuard (fun p => [aliasCanon p]) ⟨[], []⟩ "reports/a.html")
        "reports/link.html").extractedDocs =
      ["reports/a.html", "reports/a.html"] := by
  refine ⟨rfl, by decide, rfl⟩

/-- C7 amended: the skip set is keyed by the exact path string: a second
visit under the *identical* path string is a no-op (the same file is never
extracted twice under the same string), but nothing canonicalizes aliases
first. -/
theorem dedup_same_path_amended :
    ∀ (contents : String → List String) (st : ExtractorState) (p : String),
      processFileGuard contents (processFileGuard contents st p) p =
        processFileGuard contents st p := by
  intro contents st p
  by_cases h : p ∈ st.processedFiles
  · simp [processFileGuard, h]
  · simp [processFileGuard, h]

/-- C8: the collision-safe naming loop never picks a name already present
(so writing a second document with the same base name never overwrites the
first file's bytes), and the second write of the same `stem`/`ext` pair
lands on the suffixed name `stem_k + ext` with the first free suffix `k ≥ 1`
(every smaller suffixed candidate is already taken). -/
theorem collision_safe_naming (existing : List String) (stem ext : String) :
    freshName existing stem ext ∉ existing ∧
    freshName (existing ++ [freshName existing stem ext]) stem ext ∉
      existing ++ [freshName existing stem ext] ∧
    freshName (existing ++ [freshName existing stem ext]) stem ext ≠
      freshName existing stem ext ∧
    ∃ k, 1 ≤ k ∧
      freshName (existing ++ [freshName existing stem ext]) stem ext =
        candName stem ext k ∧
      ∀ j, 1 ≤ j → j < k →
        candName stem ext j ∈ existing ++ [freshName existing stem ext] := by
  have h1 := freshName_not_mem existing stem ext
  set n1 := freshName existing stem ext with hn1
  set E2 := existing ++ [n1] with hE2
  have h2 := freshName_not_mem E2 stem ext
  have hbase : stem ++ ext ∈ E2 := by
    by_cases hb : stem ++ ext ∈ existing
    · exact List.mem_append_left _ hb
    · have hplain : n1 = stem ++ ext := by
        rw [hn1]; unfold freshName; rw [if_neg hb]
      rw [hE2, hplain]
      exact List.mem_append_right _ (by simp)
  have hne : freshName E2 stem ext ≠ n1 := by
    intro he
    exact h2 (he ▸ List.mem_append_right _ (by simp))
  refine ⟨h1, h2, hne, ?_⟩
  have haux : freshName E2 stem ext = freshNameAux E2 stem ext (E2.length + 1) 1 := by
    unfold freshName; rw [if_pos hbase]
  obtain ⟨i, hile, hfree⟩ := exists_fresh_cand E2 stem ext 1
  obtain ⟨i', hi', heq, hfree', hall⟩ :=
    freshNameAux_spec E2 stem ext (E2.length + 1) 1 ⟨i, by omega, hfree⟩
  refine ⟨1 + i', by omega, by rw [haux, heq], ?_⟩
  intro j h1j hjk
  have hj := hall (j - 1) (by omega)
  rwa [show 1 + (j - 1) = j by omega] at hj

/-- C9: `_move_file` (despite its name and docstring) copies with
`shutil.copy2` and never removes the source: for every state, path and
verdict the source directory is unchanged, so a document classified
`rua`/`ruf` still resides at its original extracted location; evaluated at
the failing input, classifying `extracted/report.html` as an aggregate
report leaves it in the source directory while a copy appears in the RUA
directory. -/
theorem move_file_copies_not_moves :
    (∀ (st : ClassifierState) (stem ext : String) (kind : ReportKind),
      (moveFile st stem ext kind).srcDir = st.srcDir) ∧
    (moveFile ⟨["extracted/report.html"], [], [], [], [], []⟩ "report" ".html"
        ReportKind.rua).srcDir = ["extracted/report.html"] ∧
    (moveFile ⟨["extracted/report.html"], [], [], [], [], []⟩ "report" ".html"
        ReportKind.rua).ruaDir = ["report.html"] ∧
    (moveFile ⟨["extracted/report.html"], [], [], [], [], []⟩ "report" ".html"
        ReportKind.unclassified).unclassifiedFiles = ["report.html"] := by
  refine ⟨?_, rfl, rfl, rfl⟩
  intro st stem ext kind
  cases kind <;> rfl

/-- C10: an HTML forensic document's Report_ID is always the filename stem
(`html_path.stem`), independent of the document's content and regex
matches — so it is never the `'Unknown'` placeholder unless the stem itself
is that word — while on the XML track a missing `report_id` element yields
`'Unknown'`. -/
theorem forensic_report_id_source :
    (∀ (now stem text : String) (m : HtmlForensicMatches),
      (processHtmlForensic now stem text m).reportId = stem) ∧
    (∀ (now stem text : String) (m : HtmlForensicMatches), stem ≠ "Unknown" →
      (processHtmlForensic now stem text m).reportId ≠ "Unknown") ∧
    (∀ (now : String) (doc : XmlForensicDoc) (om : OrigMsgMatches),
      doc.reportId = none →
      (processXmlForensic now doc om).reportId = "Unknown") := by
  refine ⟨?_, ?_, ?_⟩
  · intro now stem text m; rfl
  · intro now stem text m h; exact h
  · intro now doc om h
    simp [processXmlForensic, h]

theorem forensic_report_id_source_witness :
    (processHtmlForensic "t" "report_7" "no id in here" noHtmlMatches).reportId =
      "report_7" ∧
    (processHtmlForensic "t" "report_7" "no id in here" noHtmlMatches).reportId ≠
      "Unknown" ∧
    (processXmlForensic "t" emptyXmlForensicDoc noOrigMsgMatches).reportId =
      "Unknown" := by
  refine ⟨forensic_report_id_source.1 "t" "report_7" "no id in here" noHtmlMatches,
    forensic_report_id_source.2.1 "t" "report_7" "no id in here" noHtmlMatches
      (by decide),
    forensic_report_id_source.2.2 "t" emptyXmlForensicDoc noOrigMsgMatches rfl⟩

end DmarcAnalyzer
